import Mathlib

/-!
Shallow embedding of the commerce chatbot tools from
`cdp-langchain/examples/chatbot/chatbot.ts` and its near-duplicate variant.
External collaborators (the CDP wallet, the Commerce SDK gateway, readline
and the reasoning agent) are modelled as oracle parameters.  Each embedded
operation returns its result (`Except` standing for JS throw versus return)
together with the list of observable effects it performs (console output,
gateway calls, URL construction), in emission order.
-/

namespace Chatbot

variable {ε : Type}

/-- Local price: decimal amount string plus currency code. -/
structure LocalPrice where
  amount : String
  currency : String
deriving DecidableEq

/-- Pricing type enum from the zod input schema. -/
inductive PricingType where
  | fixed_price
  | no_price
deriving DecidableEq

/-- Settlement currency descriptor: contract address, native-asset flag,
decimal precision, matching the `USDC_CURRENCY` literal in `payCharge`. -/
structure SettlementCurrency where
  contractAddress : String
  isNativeAsset : Bool
  decimals : Nat
deriving DecidableEq

/-- The fixed USDC settlement currency constant from `payCharge`. -/
def USDC_CURRENCY : SettlementCurrency :=
  ⟨"0x833589fCD6eDb6E08f4c7C32D4f71b54bdA02913", false, 6⟩

/-- Chain-specific payment data of a hydrated charge.  `web3Data` is kept
opaque (the source only stringifies it or forwards it).  `expectedCurrency`
models the settlement currency the hydration step expects (spec data model);
the source never inspects it, which is what claim C3 is about. -/
structure HydratedChargeData where
  web3Data : String
  expectedCurrency : SettlementCurrency
deriving DecidableEq

/-- Gateway response wrapper for hydrateCharge: the source destructures
`{ data: hydratedCharge }` and later passes `hydratedCharge.data` on. -/
structure HydrateResponse where
  data : HydratedChargeData
deriving DecidableEq

/-- Payer wallet built by `commerce.wallets.createWallet`. -/
structure PayerWallet where
  privateKey : String
  chainId : Int
  address : String
deriving DecidableEq

/-- CDP wallet default-address boundary: `getId()` and `export()`. -/
structure AddressData where
  id : String
  exported : String
deriving DecidableEq

/-- Request body sent by createCharge / createCheckout (chatbot.ts sends
only `local_price` and `pricing_type`). -/
structure ChargeRequestBody where
  local_price : LocalPrice
  pricing_type : PricingType
deriving DecidableEq

/-- Gateway response data used by the createCharge summary. -/
structure ChargeResponseData where
  name : String
  description : String
  pricingLocal : LocalPrice
  hostedUrl : String
deriving DecidableEq

/-- Gateway response data used by the createCheckout summary. -/
structure CheckoutResponseData where
  name : String
  description : String
  localPrice : LocalPrice
deriving DecidableEq

/-- One entry of a charge status timeline. -/
structure TimelineEntry where
  status : String
deriving DecidableEq

/-- A charge as consumed by getCharges. -/
structure ChargeRecord where
  id : String
  pricingLocal : LocalPrice
  timeline : List TimelineEntry
deriving DecidableEq

/-- A webhook as consumed by getWebhooks. -/
structure WebhookRecord where
  id : String
  url : String
deriving DecidableEq

/-- Observable effects of one tool invocation, in emission order. -/
inductive Ev (ε : Type) where
  | consoleLog (msg : String)
  | consoleError (tag : String) (err : ε)
  | callCreateCharge (req : ChargeRequestBody)
  | callGetCharges
  | callHydrate (chargeId : String) (chainId : Int) (sender : String)
  | callPay (wallet : PayerWallet) (charge : HydratedChargeData)
      (currency : SettlementCurrency)
  | callCreateCheckout (req : ChargeRequestBody)
  | callCreateWebhook (url : String)
  | callGetWebhooks
  | urlConstructed (url : String)
deriving DecidableEq

/-- Arguments of the create_charge / create_checkout tools after zod
validation. -/
structure CreateChargeArgs where
  name : String
  description : String
  amount : String
  currency : String
  pricing_type : PricingType
deriving DecidableEq

/-- Arguments of the hydrate_charge / pay_charge tools. -/
structure HydrateArgs where
  charge_id : String
  chain_id : Int
deriving DecidableEq

/-- `createCharge` (chatbot.ts lines 55-80): sends `local_price` and
`pricing_type` to the gateway; on success returns the template summary built
from the response; on failure logs once and rethrows the same error. -/
def createCharge (gw : ChargeRequestBody → Except ε ChargeResponseData)
    (args : CreateChargeArgs) : Except ε String × List (Ev ε) :=
  let req : ChargeRequestBody := ⟨⟨args.amount, args.currency⟩, args.pricing_type⟩
  match gw req with
  | .ok r =>
      (.ok ("Successfully created charge:\n      Name: " ++ r.name ++
        "\n      Description: " ++ r.description ++
        "\n      Amount: " ++ r.pricingLocal.amount ++ " " ++ r.pricingLocal.currency ++
        "\n      Hosted URL: " ++ r.hostedUrl),
       [.callCreateCharge req])
  | .error e =>
      (.error e, [.callCreateCharge req, .consoleError "Error creating charge:" e])

/-- One line of the getCharges summary.  The source reads
`charge.timeline[charge.timeline.length - 1].status`: on an empty timeline
the index is -1, the element is `undefined`, and the `.status` access throws
a TypeError; `none` models that throw. -/
def chargeLine (c : ChargeRecord) : Option String :=
  (c.timeline.getLast?).map fun t =>
    c.id ++ ": " ++ c.pricingLocal.amount ++ " " ++ c.pricingLocal.currency ++ " " ++ t.status

/-- `getCharges` (chatbot.ts lines 93-102).  `typeErr` models the JS
runtime allocating a TypeError for a property access on `undefined`. -/
def getCharges (typeErr : String → ε) (gw : Except ε (List ChargeRecord)) :
    Except ε String × List (Ev ε) :=
  match gw with
  | .error e => (.error e, [.callGetCharges, .consoleError "Error creating charge:" e])
  | .ok charges =>
      match charges.mapM chargeLine with
      | some lines =>
          (.ok ("Your charges are:\n" ++ String.intercalate "\n" lines), [.callGetCharges])
      | none =>
          let e := typeErr "TypeError: cannot read status of undefined"
          (.error e, [.callGetCharges, .consoleError "Error creating charge:" e])

/-- `hydrateCharge` (chatbot.ts lines 176-196): `getDefaultAddress` is
awaited before the try block, so an address failure propagates with no
logging and no gateway call; the gateway call sits inside try/catch with a
log-once-and-rethrow handler. -/
def hydrateCharge (addr : Except ε AddressData)
    (gw : String → Int → String → Except ε HydrateResponse)
    (args : HydrateArgs) : Except ε String × List (Ev ε) :=
  match addr with
  | .error e => (.error e, [])
  | .ok a =>
      match gw args.charge_id args.chain_id a.id with
      | .ok r =>
          (.ok ("Successfully hydrated charge:\n      Web3 Data: " ++ r.data.web3Data),
           [.callHydrate args.charge_id args.chain_id a.id])
      | .error e =>
          (.error e,
           [.callHydrate args.charge_id args.chain_id a.id,
            .consoleError "Error creating charge:" e])

/-- Oracle bundle for `payCharge`: wallet default address, gateway
hydration, local payer-wallet construction, gateway payment. -/
structure PayEnv (ε : Type) where
  defaultAddress : Except ε AddressData
  hydrate : String → Int → String → Except ε HydrateResponse
  createWallet : String → Int → PayerWallet
  pay : PayerWallet → HydratedChargeData → SettlementCurrency → Except ε String

/-- `payCharge` (chatbot.ts lines 216-254): resolves the default address,
re-hydrates the charge for the call's own (charge_id, chain_id) pair with
that address as sender, exports and logs the private key, builds a payer
wallet on the fixed chain 8453, logs its address, submits the payment with
the fixed USDC currency, and on any in-try error logs once and rethrows. -/
def payCharge (env : PayEnv ε) (args : HydrateArgs) : Except ε String × List (Ev ε) :=
  match env.defaultAddress with
  | .error e => (.error e, [.consoleError "Error creating charge:" e])
  | .ok a =>
      match env.hydrate args.charge_id args.chain_id a.id with
      | .error e =>
          (.error e,
           [.callHydrate args.charge_id args.chain_id a.id,
            .consoleError "Error creating charge:" e])
      | .ok hydrated =>
          let privateKey := a.exported
          let payerWallet := env.createWallet privateKey 8453
          match env.pay payerWallet hydrated.data USDC_CURRENCY with
          | .ok tx =>
              (.ok ("Successfully paid charge:\n      Transaction Hash: " ++ tx),
               [.callHydrate args.charge_id args.chain_id a.id,
                .consoleLog privateKey, .consoleLog payerWallet.address,
                .callPay payerWallet hydrated.data USDC_CURRENCY])
          | .error e =>
              (.error e,
               [.callHydrate args.charge_id args.chain_id a.id,
                .consoleLog privateKey, .consoleLog payerWallet.address,
                .callPay payerWallet hydrated.data USDC_CURRENCY,
                .consoleError "Error creating charge:" e])

/-- `createCheckout` (chatbot.ts lines 129-156): same shape as createCharge
against the checkouts endpoint, summary without a hosted URL. -/
def createCheckout (gw : ChargeRequestBody → Except ε CheckoutResponseData)
    (args : CreateChargeArgs) : Except ε String × List (Ev ε) :=
  let req : ChargeRequestBody := ⟨⟨args.amount, args.currency⟩, args.pricing_type⟩
  match gw req with
  | .ok r =>
      (.ok ("Successfully created checkout:\n      Name: " ++ r.name ++
        "\n      Description: " ++ r.description ++
        "\n      Amount: " ++ r.localPrice.amount ++ " " ++ r.localPrice.currency),
       [.callCreateCheckout req])
  | .error e =>
      (.error e, [.callCreateCheckout req, .consoleError "Error creating checkout:" e])

/-- `createWebhook` (chatbot.ts lines 272-284). -/
def createWebhook (gw : String → Except ε Unit) (url : String) :
    Except ε String × List (Ev ε) :=
  match gw url with
  | .ok _ =>
      (.ok ("Successfully created webhook::\n      Url: " ++ url ++ ";"),
       [.callCreateWebhook url])
  | .error e =>
      (.error e, [.callCreateWebhook url, .consoleError "Error creating webhook:" e])

/-- `getWebhooks` (chatbot.ts lines 300-310). -/
def getWebhooks (gw : Except ε (List WebhookRecord)) : Except ε String × List (Ev ε) :=
  match gw with
  | .ok hooks =>
      (.ok ("Your webhooks are:\n" ++
        String.intercalate "\n" (hooks.map fun w => w.id ++ ": " ++ w.url)),
       [.callGetWebhooks])
  | .error e =>
      (.error e, [.callGetWebhooks, .consoleError "Error creating webhook:" e])

/-! ### Concrete oracle environments used by witnesses and counterexamples -/

/-- A fully succeeding payment environment whose hydration expects USDC. -/
def payEnvOkUsdc : PayEnv String :=
  ⟨.ok ⟨"0xSender", "0xSECRET_KEY"⟩,
   fun _ _ _ => .ok ⟨⟨"w3data", USDC_CURRENCY⟩⟩,
   fun k c => ⟨k, c, "0xPayer"⟩,
   fun _ _ _ => .ok "0xtxhash"⟩

/-- A native-ETH settlement descriptor, distinct from USDC. -/
def nativeEthCurrency : SettlementCurrency := ⟨"0x0", true, 18⟩

/-- A fully succeeding payment environment whose hydration expects native
ETH rather than USDC. -/
def payEnvOkEth : PayEnv String :=
  ⟨.ok ⟨"0xSender", "0xSECRET_KEY"⟩,
   fun _ _ _ => .ok ⟨⟨"w3data", nativeEthCurrency⟩⟩,
   fun k c => ⟨k, c, "0xPayer"⟩,
   fun _ _ _ => .ok "0xtxhash"⟩

/-! ### Claim C1 -/

/-- Claim C1: in every payCharge call, any payment submission is preceded,
within the very same call, by a hydration request for exactly the call's
(charge_id, chain_id) pair with the wallet default address as sender, and
the charge object submitted for payment is precisely the data returned by
that hydration — so a hydration for a different chain id is never reused. -/
theorem payCharge_hydrates_before_paying (env : PayEnv ε) (args : HydrateArgs)
    (w : PayerWallet) (ch : HydratedChargeData) (cur : SettlementCurrency) (i : Nat)
    (hpay : (payCharge env args).2.get? i = some (.callPay w ch cur)) :
    ∃ a hr j, env.defaultAddress = .ok a ∧
      env.hydrate args.charge_id args.chain_id a.id = .ok hr ∧
      ch = hr.data ∧ j < i ∧
      (payCharge env args).2.get? j =
        some (.callHydrate args.charge_id args.chain_id a.id) := by
  rcases hda : env.defaultAddress with e | a
  · simp only [payCharge, hda] at hpay
    rcases i with _ | i <;> simp at hpay
  · rcases hh : env.hydrate args.charge_id args.chain_id a.id with e | hr
    · simp only [payCharge, hda, hh] at hpay
      rcases i with _ | _ | i <;> simp at hpay
    · rcases hp : env.pay (env.createWallet a.exported 8453) hr.data USDC_CURRENCY
        with e | tx
      all_goals
        simp only [payCharge, hda, hh, hp] at hpay ⊢
        rcases i with _ | _ | _ | _ | _ | i <;> simp at hpay
        obtain ⟨hw, hch, hcur⟩ := hpay
        exact ⟨a, hr, 0, rfl, hh, (by first | exact hch | exact hch.symm), by omega,
          by simp⟩

/-- Witness for C1: with concrete succeeding oracles the pay event sits at
index 3 of the trace and the theorem produces the hydration facts. -/
theorem payCharge_hydrates_before_paying_witness :
    ∃ a hr j, (payEnvOkUsdc).defaultAddress = .ok a ∧
      (payEnvOkUsdc).hydrate "charge_1" 8453 a.id = .ok hr ∧
      HydratedChargeData.mk "w3data" USDC_CURRENCY = hr.data ∧ j < 3 ∧
      (payCharge payEnvOkUsdc ⟨"charge_1", 8453⟩).2.get? j =
        some (.callHydrate "charge_1" 8453 a.id) :=
  payCharge_hydrates_before_paying payEnvOkUsdc ⟨"charge_1", 8453⟩
    ⟨"0xSECRET_KEY", 8453, "0xPayer"⟩ ⟨"w3data", USDC_CURRENCY⟩ USDC_CURRENCY 3
    (by decide)

/-! ### Claim C2 -/

/-- Claim C2 is violated by the code: payCharge logs the exported signing
material.  With every oracle succeeding, the effect trace of the call
contains a console log whose content is exactly the exported private key. -/
theorem payCharge_logs_exported_key :
    Ev.consoleLog "0xSECRET_KEY" ∈ (payCharge payEnvOkUsdc ⟨"charge_1", 8453⟩).2 := by
  decide

/-! ### Claim C3 -/

/-- Claim C3 counterexample: a payment whose hydration expects native ETH
still submits the fixed USDC currency and succeeds without any error, so
the submitted settlement currency does not match what hydration expects and
no failure is raised. -/
theorem payCharge_currency_mismatch_counterexample :
    (Ev.callPay ⟨"0xSECRET_KEY", 8453, "0xPayer"⟩ ⟨"w3data", nativeEthCurrency⟩
        USDC_CURRENCY ∈ (payCharge payEnvOkEth ⟨"charge_1", 8453⟩).2) ∧
    nativeEthCurrency ≠ USDC_CURRENCY ∧
    (payCharge payEnvOkEth ⟨"charge_1", 8453⟩).1 =
      .ok "Successfully paid charge:\n      Transaction Hash: 0xtxhash" :=
  ⟨by decide, by decide, rfl⟩

/-- Claim C3 amended: payCharge always submits the fixed USDC settlement
currency; it performs no check of that currency against the one the
hydration step expects and proceeds regardless of any mismatch. -/
theorem payCharge_submits_fixed_currency (env : PayEnv ε) (args : HydrateArgs)
    (w : PayerWallet) (ch : HydratedChargeData) (cur : SettlementCurrency)
    (h : Ev.callPay w ch cur ∈ (payCharge env args).2) : cur = USDC_CURRENCY := by
  rcases hda : env.defaultAddress with e | a
  · simp [payCharge, hda] at h
  · rcases hh : env.hydrate args.charge_id args.chain_id a.id with e | hr
    · simp [payCharge, hda, hh] at h
    · rcases hp : env.pay (env.createWallet a.exported 8453) hr.data USDC_CURRENCY
        with e | tx <;>
      · simp [payCharge, hda, hh, hp] at h
        exact h.2.2

/-- Witness for the amended C3 theorem at a concrete mismatching input. -/
theorem payCharge_submits_fixed_currency_witness :
    USDC_CURRENCY = USDC_CURRENCY :=
  payCharge_submits_fixed_currency payEnvOkEth ⟨"charge_1", 8453⟩
    ⟨"0xSECRET_KEY", 8453, "0xPayer"⟩ ⟨"w3data", nativeEthCurrency⟩ USDC_CURRENCY
    (by decide)

/-! ### Claim C4 -/

/-- Claim C4 is violated by the code on the empty-timeline half: on an
empty charge set getCharges returns the well-formed empty summary, but a
charge whose status timeline is empty makes the summary expression index
past the end of the timeline, so the call throws the runtime TypeError
(here modelled with the identity error constructor) instead of producing a
distinct no-status summary. -/
theorem getCharges_empty_timeline_throws :
    getCharges (fun m => m) (.ok ([] : List ChargeRecord)) =
      (.ok "Your charges are:\n", [.callGetCharges]) ∧
    (getCharges (fun m => m) (.ok [⟨"c1", ⟨"5.99", "USD"⟩, []⟩])).1 =
      .error "TypeError: cannot read status of undefined" :=
  ⟨rfl, rfl⟩

/-! ### Claim C7 -/

/-- Claim C7: for every valid input, on gateway success whose echoed local
price is the requested one (the gateway returns the charge it was asked to
create), createCharge returns the formatted summary that contains exactly
the given amount and currency code unmodified together with the charge's
name, description and hosted checkout URL. -/
theorem createCharge_summary_exact
    (gw : ChargeRequestBody → Except ε ChargeResponseData) (args : CreateChargeArgs)
    (r : ChargeResponseData)
    (hok : gw ⟨⟨args.amount, args.currency⟩, args.pricing_type⟩ = .ok r)
    (hecho : r.pricingLocal = ⟨args.amount, args.currency⟩) :
    (createCharge gw args).1 =
      .ok ("Successfully created charge:\n      Name: " ++ r.name ++
        "\n      Description: " ++ r.description ++
        "\n      Amount: " ++ args.amount ++ " " ++ args.currency ++
        "\n      Hosted URL: " ++ r.hostedUrl) := by
  simp [createCharge, hok, hecho]

/-- Witness for C7 at a concrete echoing gateway. -/
theorem createCharge_summary_exact_witness :
    (createCharge
        (fun req => (.ok ⟨"Coffee", "Large coffee", req.local_price, "https://h"⟩ :
          Except String ChargeResponseData))
        ⟨"Coffee", "Large coffee", "5.99", "USD", .fixed_price⟩).1 =
      .ok ("Successfully created charge:\n      Name: " ++ "Coffee" ++
        "\n      Description: " ++ "Large coffee" ++
        "\n      Amount: " ++ "5.99" ++ " " ++ "USD" ++
        "\n      Hosted URL: " ++ "https://h") :=
  createCharge_summary_exact
    (fun req => .ok ⟨"Coffee", "Large coffee", req.local_price, "https://h"⟩)
    ⟨"Coffee", "Large coffee", "5.99", "USD", .fixed_price⟩
    ⟨"Coffee", "Large coffee", ⟨"5.99", "USD"⟩, "https://h"⟩ rfl rfl

/-! ### Claim C8 -/

/-- Claim C8: for every gateway-backed operation and every gateway error,
the operation propagates the very same error value to its caller, logs it
exactly once at the call site, and issues the failing gateway call exactly
once with no retry and no further gateway calls — shown by characterising
the full result and effect trace of each operation on a gateway error. -/
theorem gateway_errors_propagate_once (ε : Type) :
    (∀ (gw : ChargeRequestBody → Except ε ChargeResponseData)
       (args : CreateChargeArgs) (e : ε),
       gw ⟨⟨args.amount, args.currency⟩, args.pricing_type⟩ = .error e →
       createCharge gw args =
         (.error e,
          [.callCreateCharge ⟨⟨args.amount, args.currency⟩, args.pricing_type⟩,
           .consoleError "Error creating charge:" e])) ∧
    (∀ (typeErr : String → ε) (e : ε),
       getCharges typeErr (.error e) =
         (.error e, [.callGetCharges, .consoleError "Error creating charge:" e])) ∧
    (∀ (addr : Except ε AddressData)
       (gw : String → Int → String → Except ε HydrateResponse)
       (args : HydrateArgs) (a : AddressData) (e : ε), addr = .ok a →
       gw args.charge_id args.chain_id a.id = .error e →
       hydrateCharge addr gw args =
         (.error e,
          [.callHydrate args.charge_id args.chain_id a.id,
           .consoleError "Error creating charge:" e])) ∧
    (∀ (env : PayEnv ε) (args : HydrateArgs) (a : AddressData) (e : ε),
       env.defaultAddress = .ok a →
       env.hydrate args.charge_id args.chain_id a.id = .error e →
       payCharge env args =
         (.error e,
          [.callHydrate args.charge_id args.chain_id a.id,
           .consoleError "Error creating charge:" e])) ∧
    (∀ (env : PayEnv ε) (args : HydrateArgs) (a : AddressData) (hr : HydrateResponse)
       (e : ε),
       env.defaultAddress = .ok a →
       env.hydrate args.charge_id args.chain_id a.id = .ok hr →
       env.pay (env.createWallet a.exported 8453) hr.data USDC_CURRENCY = .error e →
       payCharge env args =
         (.error e,
          [.callHydrate args.charge_id args.chain_id a.id,
           .consoleLog a.exported,
           .consoleLog (env.createWallet a.exported 8453).address,
           .callPay (env.createWallet a.exported 8453) hr.data USDC_CURRENCY,
           .consoleError "Error creating charge:" e])) ∧
    (∀ (gw : ChargeRequestBody → Except ε CheckoutResponseData)
       (args : CreateChargeArgs) (e : ε),
       gw ⟨⟨args.amount, args.currency⟩, args.pricing_type⟩ = .error e →
       createCheckout gw args =
         (.error e,
          [.callCreateCheckout ⟨⟨args.amount, args.currency⟩, args.pricing_type⟩,
           .consoleError "Error creating checkout:" e])) ∧
    (∀ (gw : String → Except ε Unit) (url : String) (e : ε), gw url = .error e →
       createWebhook gw url =
         (.error e, [.callCreateWebhook url, .consoleError "Error creating webhook:" e])) ∧
    (∀ (e : ε),
       getWebhooks (ε := ε) (.error e) =
         (.error e, [.callGetWebhooks, .consoleError "Error creating webhook:" e])) := by
  refine ⟨?_, ?_, ?_, ?_, ?_, ?_, ?_, ?_⟩
  · intro gw args e h; simp [createCharge, h]
  · intro typeErr e; simp [getCharges]
  · intro addr gw args a e ha h; simp [hydrateCharge, ha, h]
  · intro env args a e ha h; simp [payCharge, ha, h]
  · intro env args a hr e ha hh hp; simp [payCharge, ha, hh, hp]
  · intro gw args e h; simp [createCheckout, h]
  · intro gw url e h; simp [createWebhook, h]
  · intro e; simp [getWebhooks]

/-- Witness for C8: each conjunct applied at a concrete failing gateway. -/
theorem gateway_errors_propagate_once_witness :
    (createCharge (fun _ => (.error "boom" : Except String ChargeResponseData))
        ⟨"n", "d", "1.00", "USD", .fixed_price⟩ =
      (.error "boom",
       [.callCreateCharge ⟨⟨"1.00", "USD"⟩, .fixed_price⟩,
        .consoleError "Error creating charge:" "boom"])) ∧
    (getCharges (fun m => m) (.error "boom") =
      (.error "boom", [.callGetCharges, .consoleError "Error creating charge:" "boom"])) ∧
    (hydrateCharge (.ok ⟨"0xSender", "0xk"⟩) (fun _ _ _ => .error "boom")
        ⟨"charge_1", 1⟩ =
      (.error "boom",
       [.callHydrate "charge_1" 1 "0xSender", .consoleError "Error creating charge:" "boom"])) ∧
    (payCharge ⟨.ok ⟨"0xSender", "0xk"⟩, fun _ _ _ => .error "boom",
        fun k c => ⟨k, c, "0xPayer"⟩, fun _ _ _ => .ok "0xtx"⟩ ⟨"charge_1", 1⟩ =
      (.error "boom",
       [.callHydrate "charge_1" 1 "0xSender", .consoleError "Error creating charge:" "boom"])) ∧
    (payCharge ⟨.ok ⟨"0xSender", "0xk"⟩, fun _ _ _ => .ok ⟨⟨"w3", USDC_CURRENCY⟩⟩,
        fun k c => ⟨k, c, "0xPayer"⟩, fun _ _ _ => .error "boom"⟩ ⟨"charge_1", 1⟩ =
      (.error "boom",
       [.callHydrate "charge_1" 1 "0xSender", .consoleLog "0xk", .consoleLog "0xPayer",
        .callPay ⟨"0xk", 8453, "0xPayer"⟩ ⟨"w3", USDC_CURRENCY⟩ USDC_CURRENCY,
        .consoleError "Error creating charge:" "boom"])) ∧
    (createCheckout (fun _ => (.error "boom" : Except String CheckoutResponseData))
        ⟨"n", "d", "1.00", "USD", .fixed_price⟩ =
      (.error "boom",
       [.callCreateCheckout ⟨⟨"1.00", "USD"⟩, .fixed_price⟩,
        .consoleError "Error creating checkout:" "boom"])) ∧
    (createWebhook (fun _ => (.error "boom" : Except String Unit)) "https://w" =
      (.error "boom",
       [.callCreateWebhook "https://w", .consoleError "Error creating webhook:" "boom"])) ∧
    (getWebhooks (ε := String) (.error "boom") =
      (.error "boom", [.callGetWebhooks, .consoleError "Error creating webhook:" "boom"])) := by
  obtain ⟨h1, h2, h3, h4, h5, h6, h7, h8⟩ := gateway_errors_propagate_once String
  exact ⟨h1 _ _ _ rfl, h2 _ _, h3 _ _ _ _ _ rfl rfl, h4 _ _ _ _ rfl rfl,
    h5 _ _ ⟨"0xSender", "0xk"⟩ ⟨⟨"w3", USDC_CURRENCY⟩⟩ _ rfl rfl rfl,
    h6 _ _ _ rfl, h7 _ _ _ rfl, h8 _⟩

/-! ### Claim C10 -/

/-- Claim C10: hydrateCharge resolves the wallet default address before any
gateway call and outside the error-logging block: when address resolution
fails, the same error propagates to the caller and the effect trace is
empty — nothing logged, no hydration gateway request issued. -/
theorem hydrateCharge_addr_error_silent (addr : Except ε AddressData)
    (gw : String → Int → String → Except ε HydrateResponse) (args : HydrateArgs)
    (e : ε) (h : addr = .error e) :
    hydrateCharge addr gw args = (.error e, []) := by
  simp [hydrateCharge, h]

/-- Witness for C10 at a concrete failing address oracle. -/
theorem hydrateCharge_addr_error_silent_witness :
    hydrateCharge (.error "no wallet") (fun _ _ _ => .ok ⟨⟨"w3", USDC_CURRENCY⟩⟩)
        ⟨"charge_1", 1⟩ =
      ((.error "no wallet" : Except String String), []) :=
  hydrateCharge_addr_error_silent _ _ _ _ rfl

/-! ### Run loop (chat mode, autonomous mode, mode selection) -/

/-- ASCII lowering of one character, modelling `toLowerCase` on the inputs
the loop compares. -/
def jsCharLower (c : Char) : Char :=
  if 65 ≤ c.toNat ∧ c.toNat ≤ 90 then Char.ofNat (c.toNat + 32) else c

/-- `String.prototype.toLowerCase` (ASCII model). -/
def jsToLower (s : String) : String := String.mk (s.data.map jsCharLower)

/-- Whitespace test used by the trim model: space, tab, newline, carriage
return. -/
def isWs (c : Char) : Bool := [32, 9, 10, 13].contains c.toNat

/-- `String.prototype.trim` model: strip whitespace from both ends. -/
def jsTrim (s : String) : String :=
  String.mk (((s.data.dropWhile isWs).reverse.dropWhile isWs).reverse)

/-- How the interactive loop ends: clean break on "exit", process.exit(1)
from the catch block, or blocking forever on input (modelled by running out
of the finite input list). -/
inductive ChatOutcome where
  | normalEnd
  | fatalEnd
  | blocked
deriving DecidableEq

/-- The while-loop body of `runChatMode` (chatbot.ts lines 594-611) over a
finite list of input lines: returns the inputs submitted as turns and how
the loop ended.  An input whose toLowerCase equals "exit" breaks the loop
before any turn is submitted for it; a throwing turn reaches the catch
block, which exits the process. -/
def chatLoop (turn : String → Except ε Unit) : List String → List String × ChatOutcome
  | [] => ([], .blocked)
  | i :: rest =>
    if jsToLower i = "exit" then ([], .normalEnd)
    else
      match turn i with
      | .error _ => ([i], .fatalEnd)
      | .ok _ =>
          let r := chatLoop turn rest
          (i :: r.1, r.2)

/-- Result of `runChatMode`: submitted turns, whether the readline interface
was closed, and the outcome.  `rl.close()` sits in the finally block and
runs when the loop is left by break; `process.exit(1)` in the catch block
terminates the process without running finally. -/
structure ChatResult where
  submitted : List String
  rlClosed : Bool
  outcome : ChatOutcome
deriving DecidableEq

/-- `runChatMode` (chatbot.ts lines 582-620). -/
def runChatMode (turn : String → Except ε Unit) (inputs : List String) : ChatResult :=
  let r := chatLoop turn inputs
  ⟨r.1, r.2 == ChatOutcome.normalEnd, r.2⟩

/-- The two run modes offered by `chooseMode`. -/
inductive AgentMode where
  | chat
  | auto
deriving DecidableEq

/-- `chooseMode` (chatbot.ts lines 627-654) over a finite input list:
lowercase and trim each choice, loop until a recognised one appears. -/
def chooseModeRun : List String → Option AgentMode
  | [] => none
  | c :: rest =>
    let choice := jsTrim (jsToLower c)
    if choice = "1" ∨ choice = "chat" then some .chat
    else if choice = "2" ∨ choice = "auto" then some .auto
    else chooseModeRun rest

/-- Process-level outcome: natural end with status 0, process.exit(1), or
no exit (still looping or blocked waiting on input). -/
inductive ProcOutcome where
  | exit0
  | exit1
  | noExit
deriving DecidableEq

/-- `runAutonomousMode` (chatbot.ts lines 546-574) with fuel: each
iteration submits the fixed creative-action prompt; a throwing turn exits
the process with status 1; the loop itself never terminates. -/
def autoLoop (autoTurn : Nat → Except ε Unit) : Nat → ProcOutcome
  | 0 => .noExit
  | fuel + 1 =>
    match autoTurn fuel with
    | .error _ => .exit1
    | .ok _ => autoLoop autoTurn fuel

/-- `main` plus the entry guard (chatbot.ts lines 659-683): bootstrap, mode
selection, then the selected loop; any bootstrap or loop error exits 1;
only a clean chat-loop break reaches natural program end (status 0). -/
def program (boot : Except ε Unit) (modeInputs chatInputs : List String)
    (turn : String → Except ε Unit) (autoTurn : Nat → Except ε Unit)
    (autoFuel : Nat) : ProcOutcome :=
  match boot with
  | .error _ => .exit1
  | .ok _ =>
    match chooseModeRun modeInputs with
    | none => .noExit
    | some .chat =>
      match (chatLoop turn chatInputs).2 with
      | .normalEnd => .exit0
      | .fatalEnd => .exit1
      | .blocked => .noExit
    | some .auto => autoLoop autoTurn autoFuel

/-- The autonomous loop never reaches natural program end. -/
theorem autoLoop_ne_exit0 (autoTurn : Nat → Except ε Unit) (fuel : Nat) :
    autoLoop autoTurn fuel ≠ .exit0 := by
  induction fuel with
  | zero => simp [autoLoop]
  | succ n ih =>
    simp only [autoLoop]
    rcases autoTurn n with e | u
    · simp
    · simpa using ih

/-- Core of the exit behaviour: a chat input list whose first
case-insensitive "exit" comes after well-behaved turns makes the loop
submit exactly the preceding inputs and end normally. -/
theorem chatLoop_exit (turn : String → Except ε Unit) (pre : List String)
    (i : String) (post : List String)
    (hpre : ∀ j ∈ pre, jsToLower j ≠ "exit") (hok : ∀ j ∈ pre, turn j = .ok ())
    (hi : jsToLower i = "exit") :
    chatLoop turn (pre ++ i :: post) = (pre, .normalEnd) := by
  induction pre with
  | nil => simp [chatLoop, hi]
  | cons j pre ih =>
    have hj : jsToLower j ≠ "exit" := hpre j (by simp)
    have hjok : turn j = .ok () := hok j (by simp)
    have ihh := ih (fun x hx => hpre x (by simp [hx])) (fun x hx => hok x (by simp [hx]))
    simp only [List.cons_append, chatLoop, if_neg hj, hjok, List.append_eq, ihh]

/-- A normal chat-loop end can only come from an input whose lowercase form
is "exit", preceded by non-exit inputs whose turns all succeeded. -/
theorem chatLoop_normalEnd_decomp (turn : String → Except ε Unit)
    (inputs : List String) (h : (chatLoop turn inputs).2 = .normalEnd) :
    ∃ pre i post, inputs = pre ++ i :: post ∧ jsToLower i = "exit" ∧
      ∀ j ∈ pre, jsToLower j ≠ "exit" ∧ turn j = .ok () := by
  induction inputs with
  | nil => simp [chatLoop] at h
  | cons i rest ih =>
    by_cases hi : jsToLower i = "exit"
    · exact ⟨[], i, rest, by simp, hi, by simp⟩
    · simp only [chatLoop, if_neg hi] at h
      rcases ht : turn i with e | u
      · rw [ht] at h; simp at h
      · rw [ht] at h
        simp only at h
        obtain ⟨pre, x, post, hdecomp, hx, hpre⟩ := ih h
        refine ⟨i :: pre, x, post, by simp [hdecomp], hx, ?_⟩
        intro j hjmem
        rcases List.mem_cons.mp hjmem with hje | hjm
        · subst hje
          cases u
          exact ⟨hi, ht⟩
        · exact hpre j hjm

/-! ### Claim C9 -/

/-- Claim C9: (a) in the interactive loop, an input whose lowercase form is
"exit" (so "Exit", "EXIT", ...) terminates the loop: exactly the preceding
inputs were submitted as turns, the exit input is not submitted, and the
readline interface is released; (b) under chat mode that same situation
drives the whole program to natural end with exit status 0; and (c) exit
status 0 is reached only on this path: it requires chat mode and an input
list containing a case-insensitive "exit" reached after successful
non-exit turns. -/
theorem chat_exit_only_path_to_exit0 (ε : Type) :
    (∀ (turn : String → Except ε Unit) (pre : List String) (i : String)
       (post : List String),
       (∀ j ∈ pre, jsToLower j ≠ "exit") → (∀ j ∈ pre, turn j = .ok ()) →
       jsToLower i = "exit" →
       runChatMode turn (pre ++ i :: post) = ⟨pre, true, .normalEnd⟩) ∧
    (∀ (modeInputs : List String) (turn : String → Except ε Unit)
       (autoTurn : Nat → Except ε Unit) (autoFuel : Nat) (pre : List String)
       (i : String) (post : List String),
       chooseModeRun modeInputs = some .chat →
       (∀ j ∈ pre, jsToLower j ≠ "exit") → (∀ j ∈ pre, turn j = .ok ()) →
       jsToLower i = "exit" →
       program (.ok ()) modeInputs (pre ++ i :: post) turn autoTurn autoFuel = .exit0) ∧
    (∀ (boot : Except ε Unit) (modeInputs chatInputs : List String)
       (turn : String → Except ε Unit) (autoTurn : Nat → Except ε Unit)
       (autoFuel : Nat),
       program boot modeInputs chatInputs turn autoTurn autoFuel = .exit0 →
       chooseModeRun modeInputs = some .chat ∧
       ∃ pre i post, chatInputs = pre ++ i :: post ∧ jsToLower i = "exit" ∧
         ∀ j ∈ pre, jsToLower j ≠ "exit" ∧ turn j = .ok ()) := by
  refine ⟨?_, ?_, ?_⟩
  · intro turn pre i post hpre hok hi
    simp [runChatMode, chatLoop_exit turn pre i post hpre hok hi]
  · intro modeInputs turn autoTurn autoFuel pre i post hmode hpre hok hi
    simp [program, hmode, chatLoop_exit turn pre i post hpre hok hi]
  · intro boot modeInputs chatInputs turn autoTurn autoFuel h
    rcases boot with e | u
    · simp [program] at h
    · rcases hmode : chooseModeRun modeInputs with _ | m
      · simp [program, hmode] at h
      · rcases m with _ | _
        · simp only [program, hmode] at h
          rcases hend : (chatLoop turn chatInputs).2 with _ | _ | _ <;> rw [hend] at h
          · exact ⟨rfl, chatLoop_normalEnd_decomp turn chatInputs hend⟩
          · simp at h
          · simp at h
        · simp only [program, hmode] at h
          exact absurd h (autoLoop_ne_exit0 autoTurn autoFuel)

/-- Witness for C9 at concrete inputs: the chat loop on
["hello", "EXIT", "later"] submits only "hello", closes the interface, and
the program with chat mode selected ends with status 0; conversely that
exit status implies the decomposition. -/
theorem chat_exit_only_path_to_exit0_witness :
    (runChatMode (fun _ => (.ok () : Except String Unit)) ["hello", "EXIT", "later"] =
      ⟨["hello"], true, .normalEnd⟩) ∧
    (program (.ok ()) ["chat"] ["hello", "EXIT", "later"]
        (fun _ => (.ok () : Except String Unit)) (fun _ => .ok ()) 0 = .exit0) ∧
    (chooseModeRun ["chat"] = some .chat ∧
      ∃ pre i post, (["hello", "EXIT", "later"] : List String) = pre ++ i :: post ∧
        jsToLower i = "exit" ∧
        ∀ j ∈ pre, jsToLower j ≠ "exit" ∧
          (fun (_ : String) => (.ok () : Except String Unit)) j = .ok ()) := by
  obtain ⟨h1, h2, h3⟩ := chat_exit_only_path_to_exit0 String
  refine ⟨h1 _ ["hello"] "EXIT" ["later"] (by decide) (fun _ _ => rfl) (by decide),
    h2 ["chat"] _ (fun _ => .ok ()) 0 ["hello"] "EXIT" ["later"] (by decide) (by decide)
      (fun _ _ => rfl) (by decide),
    h3 (.ok ()) ["chat"] ["hello", "EXIT", "later"] _ (fun _ => .ok ()) 0 (by decide)⟩

/-! ### Byte and code-point machinery for the funding-link URL

The source builds the pay link with `new URL`, `searchParams.append` and
`JSON.stringify`; the platform pieces (UTF-8, application/x-www-form-urlencoded
percent-encoding, JSON string escaping and parsing) are modelled here over
lists of natural numbers: code points for text, byte values for the encoded
query string. -/

/-- Uppercase hex digit, as produced by percent-encoding. -/
def hexDigitU (d : Nat) : Nat := if d < 10 then 48 + d else 55 + d

/-- Lowercase hex digit, as produced by JSON.stringify 4-hex escapes. -/
def hexDigitL (d : Nat) : Nat := if d < 10 then 48 + d else 87 + d

/-- Hex digit test (both cases), used by the decoders. -/
def isHexDigit (c : Nat) : Bool :=
  (48 ≤ c && c ≤ 57) || (65 ≤ c && c ≤ 70) || (97 ≤ c && c ≤ 102)

/-- Numeric value of a hex digit. -/
def hexVal (c : Nat) : Nat :=
  if 48 ≤ c ∧ c ≤ 57 then c - 48
  else if 65 ≤ c ∧ c ≤ 70 then c - 55
  else c - 87

theorem isHexDigit_hexDigitU (d : Nat) (h : d < 16) : isHexDigit (hexDigitU d) = true := by
  unfold isHexDigit hexDigitU
  split <;> simp <;> omega

theorem hexVal_hexDigitU (d : Nat) (h : d < 16) : hexVal (hexDigitU d) = d := by
  unfold hexVal hexDigitU
  split <;> [skip; skip] <;> split <;> try split
  all_goals omega

theorem isHexDigit_hexDigitL (d : Nat) (h : d < 16) : isHexDigit (hexDigitL d) = true := by
  unfold isHexDigit hexDigitL
  split <;> simp <;> omega

theorem hexVal_hexDigitL (d : Nat) (h : d < 16) : hexVal (hexDigitL d) = d := by
  unfold hexVal hexDigitL
  split <;> [skip; skip] <;> split <;> try split
  all_goals omega

/-- UTF-8 encoding of one Unicode code point. -/
def utf8EncodeCp (c : Nat) : List Nat :=
  if c < 128 then [c]
  else if c < 2048 then [192 + c / 64, 128 + c % 64]
  else if c < 65536 then [224 + c / 4096, 128 + c / 64 % 64, 128 + c % 64]
  else [240 + c / 262144, 128 + c / 4096 % 64, 128 + c / 64 % 64, 128 + c % 64]

/-- UTF-8 encoding of a code-point sequence. -/
def utf8Encode (cs : List Nat) : List Nat := (cs.map utf8EncodeCp).flatten

/-- Consume `n` UTF-8 continuation bytes, accumulating the code point. -/
def utf8Cont : Nat → Nat → List Nat → Option (Nat × List Nat)
  | 0, acc, rest => some (acc, rest)
  | n + 1, acc, b :: rest =>
      if 128 ≤ b ∧ b < 192 then utf8Cont n (acc * 64 + (b - 128)) rest else none
  | _ + 1, _, [] => none

/-- Decode one UTF-8-encoded code point from the front of a byte list
(permissive: no overlong checks, which the round trips never rely on). -/
def utf8DecodeOne : List Nat → Option (Nat × List Nat)
  | [] => none
  | b :: bs =>
    if b < 128 then some (b, bs)
    else if b < 192 then none
    else if b < 224 then utf8Cont 1 (b - 192) bs
    else if b < 240 then utf8Cont 2 (b - 224) bs
    else if b < 248 then utf8Cont 3 (b - 240) bs
    else none

/-- Fuelled UTF-8 decoding loop. -/
def utf8DecodeAux : Nat → List Nat → Option (List Nat)
  | _, [] => some []
  | 0, _ :: _ => none
  | fuel + 1, b :: bs =>
    match utf8DecodeOne (b :: bs) with
    | some (c, rest) => (fun r => c :: r) <$> utf8DecodeAux fuel rest
    | none => none

/-- UTF-8 decoding of a byte list back to code points. -/
def utf8Decode (l : List Nat) : Option (List Nat) := utf8DecodeAux l.length l

theorem utf8Cont_zero (acc : Nat) (rest : List Nat) :
    utf8Cont 0 acc rest = some (acc, rest) := rfl

theorem utf8Cont_step (n acc b : Nat) (rest : List Nat) (hb : 128 ≤ b ∧ b < 192) :
    utf8Cont (n + 1) acc (b :: rest) = utf8Cont n (acc * 64 + (b - 128)) rest := by
  rw [utf8Cont, if_pos hb]

theorem utf8DecodeOne_cons (b : Nat) (bs : List Nat) :
    utf8DecodeOne (b :: bs) =
      if b < 128 then some (b, bs)
      else if b < 192 then none
      else if b < 224 then utf8Cont 1 (b - 192) bs
      else if b < 240 then utf8Cont 2 (b - 224) bs
      else if b < 248 then utf8Cont 3 (b - 240) bs
      else none := rfl

theorem utf8DecodeOne_encodeCp (c : Nat) (hc : c < 1114112) (bs : List Nat) :
    utf8DecodeOne (utf8EncodeCp c ++ bs) = some (c, bs) := by
  unfold utf8EncodeCp
  by_cases h1 : c < 128
  · rw [if_pos h1]
    show utf8DecodeOne (c :: bs) = _
    rw [utf8DecodeOne_cons, if_pos h1]
  · rw [if_neg h1]
    by_cases h2 : c < 2048
    · rw [if_pos h2]
      have ha : ¬(192 + c / 64 < 128) := by omega
      have hb : ¬(192 + c / 64 < 192) := by omega
      have hcd : 192 + c / 64 < 224 := by omega
      have hcont : 128 ≤ 128 + c % 64 ∧ 128 + c % 64 < 192 := by omega
      show utf8DecodeOne ((192 + c / 64) :: (128 + c % 64) :: bs) = _
      rw [utf8DecodeOne_cons, if_neg ha, if_neg hb, if_pos hcd,
        utf8Cont_step _ _ _ _ hcont, utf8Cont_zero]
      have harith : (192 + c / 64 - 192) * 64 + (128 + c % 64 - 128) = c := by omega
      rw [harith]
    · rw [if_neg h2]
      by_cases h3 : c < 65536
      · rw [if_pos h3]
        have ha : ¬(224 + c / 4096 < 128) := by omega
        have hb : ¬(224 + c / 4096 < 192) := by omega
        have hcd : ¬(224 + c / 4096 < 224) := by omega
        have hd : 224 + c / 4096 < 240 := by omega
        have hcont1 : 128 ≤ 128 + c / 64 % 64 ∧ 128 + c / 64 % 64 < 192 := by omega
        have hcont2 : 128 ≤ 128 + c % 64 ∧ 128 + c % 64 < 192 := by omega
        show utf8DecodeOne ((224 + c / 4096) :: (128 + c / 64 % 64) :: (128 + c % 64) :: bs) = _
        rw [utf8DecodeOne_cons, if_neg ha, if_neg hb, if_neg hcd, if_pos hd,
          utf8Cont_step _ _ _ _ hcont1, utf8Cont_step _ _ _ _ hcont2, utf8Cont_zero]
        have harith : ((224 + c / 4096 - 224) * 64 + (128 + c / 64 % 64 - 128)) * 64 +
            (128 + c % 64 - 128) = c := by omega
        rw [harith]
      · rw [if_neg h3]
        have ha : ¬(240 + c / 262144 < 128) := by omega
        have hb : ¬(240 + c / 262144 < 192) := by omega
        have hcd : ¬(240 + c / 262144 < 224) := by omega
        have hd : ¬(240 + c / 262144 < 240) := by omega
        have he' : 240 + c / 262144 < 248 := by omega
        have hcont1 : 128 ≤ 128 + c / 4096 % 64 ∧ 128 + c / 4096 % 64 < 192 := by omega
        have hcont2 : 128 ≤ 128 + c / 64 % 64 ∧ 128 + c / 64 % 64 < 192 := by omega
        have hcont3 : 128 ≤ 128 + c % 64 ∧ 128 + c % 64 < 192 := by omega
        show utf8DecodeOne ((240 + c / 262144) :: (128 + c / 4096 % 64) ::
          (128 + c / 64 % 64) :: (128 + c % 64) :: bs) = _
        rw [utf8DecodeOne_cons, if_neg ha, if_neg hb, if_neg hcd, if_neg hd, if_pos he',
          utf8Cont_step _ _ _ _ hcont1, utf8Cont_step _ _ _ _ hcont2,
          utf8Cont_step _ _ _ _ hcont3, utf8Cont_zero]
        have harith : (((240 + c / 262144 - 240) * 64 + (128 + c / 4096 % 64 - 128)) * 64 +
            (128 + c / 64 % 64 - 128)) * 64 + (128 + c % 64 - 128) = c := by omega
        rw [harith]

theorem utf8EncodeCp_shape (c : Nat) : ∃ b t, utf8EncodeCp c = b :: t := by
  unfold utf8EncodeCp
  split
  · exact ⟨_, _, rfl⟩
  · split
    · exact ⟨_, _, rfl⟩
    · split
      · exact ⟨_, _, rfl⟩
      · exact ⟨_, _, rfl⟩

theorem utf8DecodeAux_encode (cs : List Nat) : ∀ (fuel : Nat),
    (∀ c ∈ cs, c < 1114112) → (utf8Encode cs).length ≤ fuel →
    utf8DecodeAux fuel (utf8Encode cs) = some cs := by
  induction cs with
  | nil =>
    intro fuel _ _
    show utf8DecodeAux fuel [] = some []
    cases fuel <;> rfl
  | cons c cs ih =>
    intro fuel hvalid hlen
    have hc : c < 1114112 := hvalid c (by simp)
    have henc : utf8Encode (c :: cs) = utf8EncodeCp c ++ utf8Encode cs := by
      simp [utf8Encode]
    obtain ⟨b, t, he⟩ := utf8EncodeCp_shape c
    have hshape : utf8Encode (c :: cs) = b :: (t ++ utf8Encode cs) := by
      rw [henc, he]; rfl
    rcases fuel with _ | f
    · rw [hshape] at hlen
      simp at hlen
    · rw [hshape] at hlen ⊢
      rw [utf8DecodeAux]
      have hone : utf8DecodeOne (b :: (t ++ utf8Encode cs)) = some (c, utf8Encode cs) := by
        have := utf8DecodeOne_encodeCp c hc (utf8Encode cs)
        rw [he] at this
        simpa using this
      rw [hone]
      have hrest : utf8DecodeAux f (utf8Encode cs) = some cs := by
        apply ih f (fun x hx => hvalid x (by simp [hx]))
        have : (b :: (t ++ utf8Encode cs)).length = 1 + t.length + (utf8Encode cs).length := by
          simp; omega
        omega
      show (fun r => c :: r) <$> utf8DecodeAux f (utf8Encode cs) = some (c :: cs)
      rw [hrest]
      rfl

theorem utf8Decode_encode (cs : List Nat) (h : ∀ c ∈ cs, c < 1114112) :
    utf8Decode (utf8Encode cs) = some cs :=
  utf8DecodeAux_encode cs (utf8Encode cs).length h (le_refl _)

/-- Bytes that the application/x-www-form-urlencoded serializer leaves as
they are: ASCII alphanumerics and `*`, `-`, `.`, `_`. -/
def unreservedByte (b : Nat) : Bool :=
  (48 ≤ b && b ≤ 57) || (65 ≤ b && b ≤ 90) || (97 ≤ b && b ≤ 122) ||
    b == 42 || b == 45 || b == 46 || b == 95

/-- Percent-encoding of one byte, as `URLSearchParams` serializes it:
unreserved bytes stay, space becomes `+`, anything else becomes a percent
sign with two uppercase hex digits. -/
def formUrlEncodeByte (b : Nat) : List Nat :=
  if unreservedByte b then [b]
  else if b = 32 then [43]
  else [37, hexDigitU (b / 16), hexDigitU (b % 16)]

/-- Serialization of a byte sequence as a form-urlencoded value. -/
def formUrlEncode (bs : List Nat) : List Nat := (bs.map formUrlEncodeByte).flatten

/-- Read a `%XY` hex pair. -/
def percentPair : List Nat → Option (Nat × List Nat)
  | h1 :: h2 :: cs2 =>
      if isHexDigit h1 && isHexDigit h2 then some (hexVal h1 * 16 + hexVal h2, cs2)
      else none
  | _ => none

/-- Decode one form-urlencoded byte from the front: `+` back to space,
`%XY` back to a byte, everything else is itself. -/
def formUrlDecodeOne : List Nat → Option (Nat × List Nat)
  | [] => none
  | c :: cs =>
    if c = 43 then some (32, cs)
    else if c = 37 then percentPair cs
    else some (c, cs)

/-- Fuelled form-urlencoded decoding loop. -/
def formUrlDecodeAux : Nat → List Nat → Option (List Nat)
  | _, [] => some []
  | 0, _ :: _ => none
  | fuel + 1, c :: cs =>
    match formUrlDecodeOne (c :: cs) with
    | some (b, rest) => (fun r => b :: r) <$> formUrlDecodeAux fuel rest
    | none => none

/-- Form-urlencoded decoding of a value back to its byte sequence. -/
def formUrlDecode (l : List Nat) : Option (List Nat) := formUrlDecodeAux l.length l

theorem formUrlDecodeOne_cons (c : Nat) (cs : List Nat) :
    formUrlDecodeOne (c :: cs) =
      if c = 43 then some (32, cs)
      else if c = 37 then percentPair cs
      else some (c, cs) := rfl

theorem formUrlDecodeOne_encodeByte (b : Nat) (hb : b < 256) (bs : List Nat) :
    formUrlDecodeOne (formUrlEncodeByte b ++ bs) = some (b, bs) := by
  unfold formUrlEncodeByte
  by_cases hu : unreservedByte b
  · rw [if_pos hu]
    show formUrlDecodeOne (b :: bs) = _
    have h43 : b ≠ 43 := by
      intro hbe; subst hbe; simp [unreservedByte] at hu
    have h37 : b ≠ 37 := by
      intro hbe; subst hbe; simp [unreservedByte] at hu
    rw [formUrlDecodeOne_cons, if_neg h43, if_neg h37]
  · rw [if_neg hu]
    by_cases hsp : b = 32
    · rw [if_pos hsp]
      show formUrlDecodeOne (43 :: bs) = _
      rw [formUrlDecodeOne_cons, if_pos rfl, hsp]
    · rw [if_neg hsp]
      show formUrlDecodeOne (37 :: hexDigitU (b / 16) :: hexDigitU (b % 16) :: bs) = _
      rw [formUrlDecodeOne_cons, if_neg (by omega), if_pos rfl]
      show (if isHexDigit (hexDigitU (b / 16)) && isHexDigit (hexDigitU (b % 16)) then
          some (hexVal (hexDigitU (b / 16)) * 16 + hexVal (hexDigitU (b % 16)),
            bs) else none) = _
      rw [isHexDigit_hexDigitU _ (by omega), isHexDigit_hexDigitU _ (by omega)]
      rw [hexVal_hexDigitU _ (by omega), hexVal_hexDigitU _ (by omega)]
      have : b / 16 * 16 + b % 16 = b := by omega
      rw [this]
      rfl

theorem formUrlEncodeByte_shape (b : Nat) : ∃ c t, formUrlEncodeByte b = c :: t := by
  unfold formUrlEncodeByte
  split
  · exact ⟨_, _, rfl⟩
  · split
    · exact ⟨_, _, rfl⟩
    · exact ⟨_, _, rfl⟩

theorem formUrlDecodeAux_encode (bs : List Nat) : ∀ (fuel : Nat),
    (∀ b ∈ bs, b < 256) → (formUrlEncode bs).length ≤ fuel →
    formUrlDecodeAux fuel (formUrlEncode bs) = some bs := by
  induction bs with
  | nil =>
    intro fuel _ _
    show formUrlDecodeAux fuel [] = some []
    cases fuel <;> rfl
  | cons b bs ih =>
    intro fuel hvalid hlen
    have hb : b < 256 := hvalid b (by simp)
    obtain ⟨c, t, he⟩ := formUrlEncodeByte_shape b
    have hshape : formUrlEncode (b :: bs) = c :: (t ++ formUrlEncode bs) := by
      show (formUrlEncodeByte b :: (bs.map formUrlEncodeByte)).flatten = _
      rw [List.flatten_cons, he]
      rfl
    rcases fuel with _ | f
    · rw [hshape] at hlen
      simp at hlen
    · rw [hshape] at hlen ⊢
      rw [formUrlDecodeAux]
      have hone : formUrlDecodeOne (c :: (t ++ formUrlEncode bs)) = some (b, formUrlEncode bs) := by
        have := formUrlDecodeOne_encodeByte b hb (formUrlEncode bs)
        rw [he] at this
        simpa using this
      rw [hone]
      have hrest : formUrlDecodeAux f (formUrlEncode bs) = some bs := by
        apply ih f (fun x hx => hvalid x (by simp [hx]))
        have : (c :: (t ++ formUrlEncode bs)).length =
            1 + t.length + (formUrlEncode bs).length := by
          simp; omega
        omega
      show (fun r => b :: r) <$> formUrlDecodeAux f (formUrlEncode bs) = some (b :: bs)
      rw [hrest]
      rfl

theorem formUrlDecode_encode (bs : List Nat) (h : ∀ b ∈ bs, b < 256) :
    formUrlDecode (formUrlEncode bs) = some bs :=
  formUrlDecodeAux_encode bs (formUrlEncode bs).length h (le_refl _)

/-- JSON string escaping of one code point, as JSON.stringify performs it:
quote and backslash get two-character escapes, the five short control
escapes are used where they exist, the remaining control characters get a
four-hex-digit escape, and everything else is emitted as it is. -/
def jsonEscapeCp (c : Nat) : List Nat :=
  if c = 34 then [92, 34]
  else if c = 92 then [92, 92]
  else if c = 8 then [92, 98]
  else if c = 9 then [92, 116]
  else if c = 10 then [92, 110]
  else if c = 12 then [92, 102]
  else if c = 13 then [92, 114]
  else if c < 32 then [92, 117, 48, 48, hexDigitL (c / 16), hexDigitL (c % 16)]
  else [c]

/-- JSON string escaping of a code-point sequence. -/
def jsonEscape (cs : List Nat) : List Nat := (cs.map jsonEscapeCp).flatten

/-- Read four hex digits of a `\uXXXX` escape. -/
def hex4 : List Nat → Option (Nat × List Nat)
  | h1 :: h2 :: h3 :: h4 :: cs =>
      if isHexDigit h1 && isHexDigit h2 && isHexDigit h3 && isHexDigit h4 then
        some (hexVal h1 * 4096 + hexVal h2 * 256 + hexVal h3 * 16 + hexVal h4, cs)
      else none
  | _ => none

/-- Decode one JSON string escape (the part after the backslash). -/
def jsonEscPair : List Nat → Option (Nat × List Nat)
  | [] => none
  | e :: cs =>
    if e = 34 then some (34, cs)
    else if e = 92 then some (92, cs)
    else if e = 47 then some (47, cs)
    else if e = 98 then some (8, cs)
    else if e = 102 then some (12, cs)
    else if e = 110 then some (10, cs)
    else if e = 114 then some (13, cs)
    else if e = 116 then some (9, cs)
    else if e = 117 then hex4 cs
    else none

/-- One step of JSON string-body parsing: closing quote, escape, or
literal character. -/
inductive JsonTok where
  | strEnd (rest : List Nat)
  | chr (c : Nat) (rest : List Nat)

/-- Read one token of a JSON string body. -/
def jsonStrStep : List Nat → Option JsonTok
  | [] => none
  | c :: cs =>
    if c = 34 then some (.strEnd cs)
    else if c = 92 then (fun p => JsonTok.chr p.1 p.2) <$> jsonEscPair cs
    else some (.chr c cs)

/-- Fuelled JSON string-body parsing: content up to the closing quote plus
the remainder after it. -/
def parseJsonStrAux : Nat → List Nat → Option (List Nat × List Nat)
  | _, [] => none
  | 0, _ :: _ => none
  | fuel + 1, c :: cs =>
    match jsonStrStep (c :: cs) with
    | some (.strEnd rest) => some ([], rest)
    | some (.chr x rest) => (fun p => (x :: p.1, p.2)) <$> parseJsonStrAux fuel rest
    | none => none

/-- JSON string-body parsing (called after the opening quote). -/
def parseJsonStr (l : List Nat) : Option (List Nat × List Nat) :=
  parseJsonStrAux l.length l

theorem hex4_cons (h1 h2 h3 h4 : Nat) (cs : List Nat) :
    hex4 (h1 :: h2 :: h3 :: h4 :: cs) =
      if isHexDigit h1 && isHexDigit h2 && isHexDigit h3 && isHexDigit h4 then
        some (hexVal h1 * 4096 + hexVal h2 * 256 + hexVal h3 * 16 + hexVal h4, cs)
      else none := rfl

theorem jsonEscPair_cons (e : Nat) (cs : List Nat) :
    jsonEscPair (e :: cs) =
      if e = 34 then some (34, cs)
      else if e = 92 then some (92, cs)
      else if e = 47 then some (47, cs)
      else if e = 98 then some (8, cs)
      else if e = 102 then some (12, cs)
      else if e = 110 then some (10, cs)
      else if e = 114 then some (13, cs)
      else if e = 116 then some (9, cs)
      else if e = 117 then hex4 cs
      else none := rfl

theorem jsonStrStep_cons (c : Nat) (cs : List Nat) :
    jsonStrStep (c :: cs) =
      if c = 34 then some (.strEnd cs)
      else if c = 92 then (fun p => JsonTok.chr p.1 p.2) <$> jsonEscPair cs
      else some (.chr c cs) := rfl

theorem jsonStrStep_escapeCp (c : Nat) (t : List Nat) :
    jsonStrStep (jsonEscapeCp c ++ t) = some (.chr c t) := by
  unfold jsonEscapeCp
  by_cases h34 : c = 34
  · subst h34
    rfl
  · rw [if_neg h34]
    by_cases h92 : c = 92
    · subst h92
      rfl
    · rw [if_neg h92]
      by_cases h8 : c = 8
      · subst h8; rfl
      · rw [if_neg h8]
        by_cases h9 : c = 9
        · subst h9; rfl
        · rw [if_neg h9]
          by_cases h10 : c = 10
          · subst h10; rfl
          · rw [if_neg h10]
            by_cases h12 : c = 12
            · subst h12; rfl
            · rw [if_neg h12]
              by_cases h13 : c = 13
              · subst h13; rfl
              · rw [if_neg h13]
                by_cases hctl : c < 32
                · rw [if_pos hctl]
                  show jsonStrStep
                    (92 :: 117 :: 48 :: 48 :: hexDigitL (c / 16) :: hexDigitL (c % 16) :: t) = _
                  rw [show jsonStrStep (92 :: 117 :: 48 :: 48 :: hexDigitL (c / 16) ::
                    hexDigitL (c % 16) :: t) = (fun p => JsonTok.chr p.1 p.2) <$>
                    hex4 (48 :: 48 :: hexDigitL (c / 16) :: hexDigitL (c % 16) :: t) from rfl]
                  rw [hex4_cons]
                  rw [isHexDigit_hexDigitL _ (by omega), isHexDigit_hexDigitL _ (by omega)]
                  have h48 : isHexDigit 48 = true := by decide
                  rw [h48]
                  simp only [Bool.and_self, Bool.true_and, if_pos]
                  rw [hexVal_hexDigitL _ (by omega), hexVal_hexDigitL _ (by omega)]
                  have hv : hexVal 48 = 0 := by decide
                  rw [hv]
                  have : 0 * 4096 + 0 * 256 + c / 16 * 16 + c % 16 = c := by omega
                  rw [this]
                  rfl
                · rw [if_neg hctl]
                  show jsonStrStep (c :: t) = _
                  rw [jsonStrStep_cons, if_neg h34, if_neg h92]

theorem jsonEscapeCp_shape (c : Nat) : ∃ b t, jsonEscapeCp c = b :: t := by
  unfold jsonEscapeCp
  repeat' split
  all_goals exact ⟨_, _, rfl⟩

theorem parseJsonStrAux_escape (s : List Nat) : ∀ (t : List Nat) (fuel : Nat),
    (jsonEscape s ++ 34 :: t).length ≤ fuel →
    parseJsonStrAux fuel (jsonEscape s ++ 34 :: t) = some (s, t) := by
  induction s with
  | nil =>
    intro t fuel hlen
    rcases fuel with _ | f
    · simp [jsonEscape] at hlen
    · show parseJsonStrAux (f + 1) (34 :: t) = some ([], t)
      rw [parseJsonStrAux]
      have hstep : jsonStrStep (34 :: t) = some (.strEnd t) := rfl
      rw [hstep]
  | cons c s ih =>
    intro t fuel hlen
    obtain ⟨b, bt, he⟩ := jsonEscapeCp_shape c
    have hshape : jsonEscape (c :: s) ++ 34 :: t =
        b :: (bt ++ (jsonEscape s ++ 34 :: t)) := by
      show ((jsonEscapeCp c :: (s.map jsonEscapeCp)).flatten) ++ 34 :: t = _
      rw [List.flatten_cons, he]
      simp [jsonEscape]
    rcases fuel with _ | f
    · rw [hshape] at hlen
      simp at hlen
    · rw [hshape] at hlen ⊢
      rw [parseJsonStrAux]
      have hstep : jsonStrStep (b :: (bt ++ (jsonEscape s ++ 34 :: t))) =
          some (.chr c (jsonEscape s ++ 34 :: t)) := by
        have := jsonStrStep_escapeCp c (jsonEscape s ++ 34 :: t)
        rw [he] at this
        simpa using this
      rw [hstep]
      have hrest : parseJsonStrAux f (jsonEscape s ++ 34 :: t) = some (s, t) := by
        apply ih t f
        have : (b :: (bt ++ (jsonEscape s ++ 34 :: t))).length =
            1 + bt.length + (jsonEscape s ++ 34 :: t).length := by
          simp; omega
        omega
      show (fun p => (c :: p.1, p.2)) <$> parseJsonStrAux f (jsonEscape s ++ 34 :: t) =
        some (c :: s, t)
      rw [hrest]
      rfl

theorem parseJsonStr_escape (s t : List Nat) :
    parseJsonStr (jsonEscape s ++ 34 :: t) = some (s, t) :=
  parseJsonStrAux_escape s t _ (le_refl _)

/-- `JSON.stringify` of the one-entry object built at chatbot.ts line 349:
the wallet address maps to the one-element array holding the blockchain
name. -/
def stringifyAddressesObj (addr net : List Nat) : List Nat :=
  123 :: 34 :: (jsonEscape addr ++ 34 :: 58 :: 91 :: 34 ::
    (jsonEscape net ++ 34 :: 93 :: 125 :: []))

/-- Expect the `":["` between the key string and the value string. -/
def expectColonArr : List Nat → Option (List Nat)
  | 58 :: 91 :: 34 :: cs => some cs
  | _ => none

/-- `JSON.parse` specialized to the shape of the addresses object: a
one-entry map from a string key to a one-element string array. -/
def parseAddressesObj : List Nat → Option (List Nat × List Nat)
  | 123 :: 34 :: cs1 =>
    (parseJsonStr cs1).bind fun p =>
      (expectColonArr p.2).bind fun cs2 =>
        (parseJsonStr cs2).bind fun q =>
          if q.2 = [93, 125] then some (p.1, q.1) else none
  | _ => none

theorem parseAddressesObj_stringify (a n : List Nat) :
    parseAddressesObj (stringifyAddressesObj a n) = some (a, n) := by
  show parseAddressesObj (123 :: 34 :: (jsonEscape a ++ 34 :: 58 :: 91 :: 34 ::
    (jsonEscape n ++ 34 :: 93 :: 125 :: []))) = _
  have hkey : parseJsonStr (jsonEscape a ++ 34 :: (58 :: 91 :: 34 ::
      (jsonEscape n ++ 34 :: 93 :: 125 :: []))) =
      some (a, 58 :: 91 :: 34 :: (jsonEscape n ++ 34 :: 93 :: 125 :: [])) :=
    parseJsonStr_escape a _
  have hval : parseJsonStr (jsonEscape n ++ 34 :: (93 :: 125 :: [])) =
      some (n, 93 :: 125 :: []) :=
    parseJsonStr_escape n _
  show (parseJsonStr (jsonEscape a ++ 34 :: 58 :: 91 :: 34 ::
      (jsonEscape n ++ 34 :: 93 :: 125 :: []))).bind _ = _
  rw [show (jsonEscape a ++ 34 :: 58 :: 91 :: 34 :: (jsonEscape n ++ 34 :: 93 :: 125 :: [])) =
    (jsonEscape a ++ 34 :: (58 :: 91 :: 34 :: (jsonEscape n ++ 34 :: 93 :: 125 :: []))) from rfl]
  rw [hkey]
  simp only [Option.some_bind]
  rw [show expectColonArr (58 :: 91 :: 34 :: (jsonEscape n ++ 34 :: 93 :: 125 :: [])) =
    some (jsonEscape n ++ 34 :: 93 :: 125 :: []) from rfl]
  simp only [Option.some_bind]
  rw [hval]
  simp only [Option.some_bind]
  rfl

/-! ### Code-point and byte bounds feeding the round trips -/

theorem hexDigitL_le (d : Nat) : hexDigitL d ≤ 87 + d := by
  unfold hexDigitL
  split <;> omega

theorem charCp_lt (c : Char) : c.toNat < 1114112 := by
  have h := c.valid
  show c.val.toNat < 1114112
  rcases h with h | ⟨h1, h2⟩
  · omega
  · omega

theorem jsonEscapeCp_lt (c : Nat) (hc : c < 1114112) :
    ∀ x ∈ jsonEscapeCp c, x < 1114112 := by
  have hL1 := hexDigitL_le (c / 16)
  have hL2 := hexDigitL_le (c % 16)
  intro x hx
  unfold jsonEscapeCp at hx
  repeat' split at hx
  all_goals simp at hx
  all_goals omega

theorem jsonEscape_lt (cs : List Nat) (h : ∀ c ∈ cs, c < 1114112) :
    ∀ x ∈ jsonEscape cs, x < 1114112 := by
  intro x hx
  unfold jsonEscape at hx
  rw [List.mem_flatten] at hx
  obtain ⟨l, hl, hxl⟩ := hx
  rw [List.mem_map] at hl
  obtain ⟨c, hcm, rfl⟩ := hl
  exact jsonEscapeCp_lt c (h c hcm) x hxl

theorem stringifyAddressesObj_lt (a n : List Nat) (ha : ∀ c ∈ a, c < 1114112)
    (hn : ∀ c ∈ n, c < 1114112) :
    ∀ x ∈ stringifyAddressesObj a n, x < 1114112 := by
  intro x hx
  have hform : stringifyAddressesObj a n =
      [123, 34] ++ (jsonEscape a ++ ([34, 58, 91, 34] ++
        (jsonEscape n ++ [34, 93, 125]))) := rfl
  rw [hform] at hx
  simp only [List.mem_append] at hx
  rcases hx with h | h | h | h | h
  · simp at h; omega
  · exact jsonEscape_lt a ha x h
  · simp at h; omega
  · exact jsonEscape_lt n hn x h
  · simp at h; omega

theorem utf8EncodeCp_lt (c : Nat) (hc : c < 1114112) :
    ∀ b ∈ utf8EncodeCp c, b < 256 := by
  intro b hb
  unfold utf8EncodeCp at hb
  repeat' split at hb
  all_goals simp at hb
  all_goals omega

theorem utf8Encode_lt (cs : List Nat) (h : ∀ c ∈ cs, c < 1114112) :
    ∀ b ∈ utf8Encode cs, b < 256 := by
  intro b hb
  unfold utf8Encode at hb
  rw [List.mem_flatten] at hb
  obtain ⟨l, hl, hbl⟩ := hb
  rw [List.mem_map] at hl
  obtain ⟨c, hcm, rfl⟩ := hl
  exact utf8EncodeCp_lt c (h c hcm) b hbl

/-! ### The funding-link construction -/

/-- Code points of a string. -/
def strCp (s : String) : List Nat := s.data.map Char.toNat

theorem strCp_lt (s : String) : ∀ c ∈ strCp s, c < 1114112 := by
  intro c hc
  unfold strCp at hc
  rw [List.mem_map] at hc
  obtain ⟨ch, _, rfl⟩ := hc
  exact charCp_lt ch

/-- The fixed pay-link base URL from the source. -/
def PAY_BASE_URL : String := "https://pay.coinbase.com/buy/select-asset"

/-- The fixed application id appended as `appId`. -/
def PROJECT_ID : String := "a61fb36c-4a21-4315-a8aa-b2bb07190dc6"

/-- Code points of `JSON.stringify({ [address]: [blockchain] })`. -/
def addressesJsonCp (address blockchain : String) : List Nat :=
  stringifyAddressesObj (strCp address) (strCp blockchain)

/-- The serialized `addresses` query-parameter value: UTF-8 bytes of the
JSON payload, form-urlencoded. -/
def addressesParamEncoded (address blockchain : String) : List Nat :=
  formUrlEncode (utf8Encode (addressesJsonCp address blockchain))

/-- Rebuild a string from ASCII byte values. -/
def natsToStr (bs : List Nat) : String := String.mk (bs.map Char.ofNat)

/-- `payUrl.toString()`: base, `appId` parameter, encoded `addresses`
parameter. -/
def payLinkUrlString (address blockchain : String) : String :=
  PAY_BASE_URL ++ "?appId=" ++ PROJECT_ID ++ "&addresses=" ++
    natsToStr (addressesParamEncoded address blockchain)

/-- `createPayLink` (chatbot.ts lines 331-368 and part_000 lines 139-176):
resolve the default address, log the network id, return the policy string
on the test network, otherwise build and return the pay-link URL.  The
`urlConstructed` event marks the `new URL` / `searchParams.append` step. -/
def createPayLink (networkId : String) (addr : Except ε String) (blockchain : String) :
    Except ε String × List (Ev ε) :=
  match addr with
  | .error e => (.error e, [.consoleError "Error creating pay link:" e])
  | .ok address =>
      if networkId = "base-sepolia" then
        (.ok "Error: Wallet is not on the Base Sepolia network, use the faucet instead",
         [.consoleLog networkId])
      else
        (.ok ("Generated Coinbase Pay Link:\n      URL: " ++
          payLinkUrlString address blockchain ++
          "\n      \n      This link will allow users to purchase crypto and send it directly to your wallet address:\n      Wallet Address: " ++
          address ++ "\n      Blockchain: " ++ blockchain),
         [.consoleLog networkId, .urlConstructed (payLinkUrlString address blockchain)])

/-! ### Claim C6 -/

/-- Claim C6: on a wallet reporting the test network "base-sepolia", once
the address is resolved the operation returns the descriptive
policy-rejection string as an ordinary result (no exception), and the
effect trace contains no URL construction. -/
theorem createPayLink_sepolia_policy (addr : Except ε String)
    (address blockchain : String) (hok : addr = .ok address) :
    (createPayLink "base-sepolia" addr blockchain).1 =
      .ok "Error: Wallet is not on the Base Sepolia network, use the faucet instead" ∧
    ∀ u, Ev.urlConstructed u ∉ (createPayLink "base-sepolia" addr blockchain).2 := by
  subst hok
  refine ⟨by simp [createPayLink], ?_⟩
  intro u
  simp [createPayLink]

/-- Witness for C6 at a concrete address oracle. -/
theorem createPayLink_sepolia_policy_witness :
    (createPayLink "base-sepolia" (.ok "0xAb12Cd" : Except String String) "base").1 =
      .ok "Error: Wallet is not on the Base Sepolia network, use the faucet instead" ∧
    ∀ u, Ev.urlConstructed u ∉
      (createPayLink "base-sepolia" (.ok "0xAb12Cd" : Except String String) "base").2 :=
  createPayLink_sepolia_policy (.ok "0xAb12Cd") "0xAb12Cd" "base" rfl

/-! ### Claim C5 -/

/-- Claim C5: on a production network, createPayLink returns the pay-link
template for a URL consisting of the fixed base, the `appId` parameter and
the form-urlencoded `addresses` parameter; that parameter value, decoded
back through query-string decoding and UTF-8, is exactly the JSON payload,
and the payload JSON-parses back to exactly the one-entry mapping from the
wallet address to the one-element list holding the blockchain name. -/
theorem createPayLink_addresses_roundtrip (networkId address blockchain : String)
    (addr : Except ε String) (hok : addr = .ok address)
    (hnet : networkId ≠ "base-sepolia") :
    (createPayLink networkId addr blockchain).1 =
      .ok ("Generated Coinbase Pay Link:\n      URL: " ++
        payLinkUrlString address blockchain ++
        "\n      \n      This link will allow users to purchase crypto and send it directly to your wallet address:\n      Wallet Address: " ++
        address ++ "\n      Blockchain: " ++ blockchain) ∧
    payLinkUrlString address blockchain =
      PAY_BASE_URL ++ "?appId=" ++ PROJECT_ID ++ "&addresses=" ++
        natsToStr (addressesParamEncoded address blockchain) ∧
    formUrlDecode (addressesParamEncoded address blockchain) =
      some (utf8Encode (addressesJsonCp address blockchain)) ∧
    utf8Decode (utf8Encode (addressesJsonCp address blockchain)) =
      some (addressesJsonCp address blockchain) ∧
    parseAddressesObj (addressesJsonCp address blockchain) =
      some (strCp address, strCp blockchain) := by
  subst hok
  have hjson : ∀ c ∈ addressesJsonCp address blockchain, c < 1114112 :=
    stringifyAddressesObj_lt (strCp address) (strCp blockchain)
      (strCp_lt address) (strCp_lt blockchain)
  refine ⟨by simp [createPayLink, hnet], rfl, ?_, ?_, ?_⟩
  · exact formUrlDecode_encode _ (utf8Encode_lt _ hjson)
  · exact utf8Decode_encode _ hjson
  · exact parseAddressesObj_stringify _ _

/-- Witness for C5 at a concrete wallet address and network. -/
theorem createPayLink_addresses_roundtrip_witness :
    (createPayLink "base-mainnet" (.ok "0xAb12Cd" : Except String String) "base").1 =
      .ok ("Generated Coinbase Pay Link:\n      URL: " ++
        payLinkUrlString "0xAb12Cd" "base" ++
        "\n      \n      This link will allow users to purchase crypto and send it directly to your wallet address:\n      Wallet Address: " ++
        "0xAb12Cd" ++ "\n      Blockchain: " ++ "base") ∧
    payLinkUrlString "0xAb12Cd" "base" =
      PAY_BASE_URL ++ "?appId=" ++ PROJECT_ID ++ "&addresses=" ++
        natsToStr (addressesParamEncoded "0xAb12Cd" "base") ∧
    formUrlDecode (addressesParamEncoded "0xAb12Cd" "base") =
      some (utf8Encode (addressesJsonCp "0xAb12Cd" "base")) ∧
    utf8Decode (utf8Encode (addressesJsonCp "0xAb12Cd" "base")) =
      some (addressesJsonCp "0xAb12Cd" "base") ∧
    parseAddressesObj (addressesJsonCp "0xAb12Cd" "base") =
      some (strCp "0xAb12Cd", strCp "base") :=
  createPayLink_addresses_roundtrip "base-mainnet" "0xAb12Cd" "base"
    (.ok "0xAb12Cd") rfl (by decide)

end Chatbot
